import Mathlib

/-!
Shallow embedding of the Cross-LLM-Validator orchestration protocol
(`src/llm_handler.py` and the result pipeline of `src/app.py`).

Python dictionaries with optional keys are embedded as structures with
`Option` fields (a `none` field models an absent key); Python exceptions
(`KeyError`, `ValueError`) are embedded as `Except String`; the network
backends behind the OpenAI and Gemini SDK calls are parameters of type
`Except String String` valued functions (an `Except.error` models the SDK
raising an exception).  `asyncio.gather` is modelled explicitly: tasks are
listed in submission order, a completion schedule is an arbitrary
permutation of the task indices, and the join re-assembles results by
index (see `completeInOrder` / `joinInOrder`).
-/

namespace CrossLLM

/-- A role-tagged chat message, as passed to `_make_api_call`. -/
structure Message where
  role : String
  content : String
deriving DecidableEq, Repr

/-- Outcome of one provider invocation: the dict
`\x7b"success": True, "content": c\x7d` or `\x7b"success": False, "error": e\x7d`
returned by `_call_openai` / `_call_gemini_sync`. -/
inductive CallResult where
  | ok (content : String)
  | err (msg : String)
deriving DecidableEq, Repr

/-- Embeds `result.get("content", "")` as used on the judge reply
(line 95 of `llm_handler.py`). -/
def CallResult.contentOrEmpty : CallResult → String
  | .ok c => c
  | .err _ => ""

/-- One element of `self.models`: the dicts built in `__init__` carry
`name`, `model_id`, `api`; the dicts built by `add_model` carry `name`,
`model_id`, `display_name` (and no `api` key). -/
structure ModelCfg where
  name : String
  model_id : String
  api : Option String := none
  display_name : Option String := none
deriving DecidableEq, Repr

/-- A per-provider answer dict as it evolves through the protocol:
`\x7b**result, **model_info\x7d` from `get_initial_answers`, possibly
extended by `original_content`, `label`, `label_class`, `display_name`
in `get_revised_answers` / `app.py`.  `Option` fields model optional
dict keys. -/
structure AnswerEntry where
  success : Bool
  content : Option String := none
  error : Option String := none
  name : String
  model_id : String
  api : Option String := none
  display_name : Option String := none
  original_content : Option String := none
  label : Option String := none
  label_class : Option String := none
deriving DecidableEq, Repr

/-- Embeds `\x7b**result, **model_info\x7d` (line 76 of `llm_handler.py`). -/
def mkEntry (m : ModelCfg) (r : CallResult) : AnswerEntry :=
  { success := match r with | .ok _ => true | .err _ => false,
    content := match r with | .ok c => some c | .err _ => none,
    error := match r with | .ok _ => none | .err e => some e,
    name := m.name,
    model_id := m.model_id,
    api := m.api,
    display_name := m.display_name }

/-- Python `k in d` on a string-keyed dict, embedded as an association
list in insertion order. -/
def dictContains (d : List (String × α)) (k : String) : Bool :=
  d.any (fun p => p.1 == k)

/-- Python `d.get(k)` / `d[k]` lookup. -/
def dictGet (d : List (String × α)) (k : String) : Option α :=
  (d.find? (fun p => p.1 == k)).map (fun p => p.2)

/-- Python `d[k] = v`: replace in place when the key exists, else append
(insertion order preserved). -/
def dictInsert (d : List (String × α)) (k : String) (v : α) : List (String × α) :=
  if dictContains d k then d.map (fun p => if p.1 == k then (k, v) else p)
  else d ++ [(k, v)]

/-- Behaviour of the OpenAI SDK call inside `_call_openai`:
given model id, messages and temperature it either produces a completion
text or raises (modelled as `Except.error` with the exception text). -/
abbrev OpenaiBackend := String → List Message → Rat → Except String String

/-- Behaviour of the Gemini SDK call inside `_call_gemini_sync`:
given model id, the flattened prompt string and temperature it either
produces `response.text` or raises. -/
abbrev GeminiBackend := String → String → Rat → Except String String

/-- Embeds `_call_openai` (lines 32-41): wrap the backend call in try/except,
tagging any exception with the backend name. -/
def callOpenai (ob : OpenaiBackend) (model_id : String)
    (messages : List Message) (temp : Rat) : CallResult :=
  match ob model_id messages temp with
  | .ok c => .ok c
  | .error e => .err ("OpenAI Error: " ++ e)

/-- The flat Gemini prompt (lines 48-49): contents of the user-role
messages joined with the two-character sequence backslash-n (the Python
source reads `"\\n".join(...)` inside a regular string, which denotes a
literal backslash followed by the letter n, not a newline). -/
def geminiPrompt (messages : List Message) : String :=
  String.intercalate "\\n"
    ((messages.filter (fun m => m.role == "user")).map (fun m => m.content))

/-- Embeds `_call_gemini_sync` (lines 43-57): flatten the prompt, call the
backend, catch any exception and tag it with the backend name. -/
def callGeminiSync (gb : GeminiBackend) (model_id : String)
    (messages : List Message) (temp : Rat) : CallResult :=
  match gb model_id (geminiPrompt messages) temp with
  | .ok c => .ok c
  | .error e => .err ("Gemini Error: " ++ e)

/-- Embeds `_make_api_call` (lines 59-66): dispatch on the `api` tag. -/
def makeApiCall (ob : OpenaiBackend) (gb : GeminiBackend)
    (api model_id : String) (messages : List Message) (temp : Rat) : CallResult :=
  if api == "openai" then callOpenai ob model_id messages temp
  else if api == "gemini" then callGeminiSync gb model_id messages temp
  else .err ("Unknown API: " ++ api)

/-- The state of an `LLMHandler` instance after a successful `__init__`. -/
structure Handler where
  openai_api_key : String
  gemini_api_key : String
  models : List ModelCfg
  judge_model_id : String
  judge_api : String
deriving DecidableEq, Repr

/-- The first entry of `self.models` (line 26). -/
def gptCfg : ModelCfg :=
  { name := "GPT-4o-mini", model_id := "gpt-4o-mini", api := some "openai" }

/-- The second entry of `self.models` (line 27). -/
def gemCfg : ModelCfg :=
  { name := "Gemini-1.5-Flash", model_id := "gemini-1.5-flash-latest",
    api := some "gemini" }

/-- The `self.models` list assigned in `__init__` (lines 25-28). -/
def defaultModels : List ModelCfg := [gptCfg, gemCfg]

/-- The handler record produced by a successful `__init__`. -/
def LLMHandler.ofKeys (ko kg : String) : Handler :=
  { openai_api_key := ko,
    gemini_api_key := kg,
    models := defaultModels,
    judge_model_id := "gpt-4o-mini",
    judge_api := "openai" }

/-- Embeds `LLMHandler.__init__` (lines 12-30).  Here `os.getenv` yields `none` when
the variable is unset, `some s` when it is set to `s`; the Python check
`if not self.openai_api_key` fires on `None` and on the empty string
(string truthiness), which `(·.getD "").isEmpty` captures. -/
def LLMHandler.init (openai_key gemini_key : Option String) : Except String Handler :=
  if (openai_key.getD "").isEmpty then
    Except.error "OPENAI_API_KEY not found in .env file."
  else if (gemini_key.getD "").isEmpty then
    Except.error "GEMINI_API_KEY not found in .env file."
  else
    Except.ok (LLMHandler.ofKeys (openai_key.getD "") (gemini_key.getD ""))

/-- Embeds `add_model` (lines 130-139): the appended dict has `name`, `model_id`
and `display_name` keys but no `api` key. -/
def add_model (h : Handler) (name model_id : String)
    (display_name : Option String) : Handler :=
  { h with models := h.models ++
      [ { name := name, model_id := model_id, api := none,
          display_name := some (display_name.getD name) } ] }

/-- Embeds `remove_model` (lines 141-143). -/
def remove_model (h : Handler) (name : String) : Handler :=
  { h with models := h.models.filter (fun m => m.name != name) }

/-- A Python list comprehension whose body may raise: the first raised
exception aborts the whole comprehension. -/
def exceptMap (f : α → Except String β) : List α → Except String (List β)
  | [] => Except.ok []
  | a :: l =>
    match f a with
    | Except.error e => Except.error e
    | Except.ok b =>
      match exceptMap f l with
      | Except.error e => Except.error e
      | Except.ok bs => Except.ok (b :: bs)

/-- A Python for-loop accumulating into a value, whose body may raise:
the first raised exception aborts the loop. -/
def exceptFoldl (f : γ → α → Except String γ) (acc : γ) : List α → Except String γ
  | [] => Except.ok acc
  | a :: l =>
    match f acc a with
    | Except.error e => Except.error e
    | Except.ok acc' => exceptFoldl f acc' l

/-- The task list built by the comprehension on line 70: `m["api"]` is
looked up eagerly while the comprehension runs, so a model without an
`api` key raises `KeyError` before any call is gathered.  The default
temperature of `_make_api_call` is 0.7. -/
def initialTasks (ob : OpenaiBackend) (gb : GeminiBackend) (h : Handler)
    (question : String) : Except String (List CallResult) :=
  exceptMap (fun m =>
    match m.api with
    | none => Except.error "KeyError: api"
    | some api =>
        Except.ok (makeApiCall ob gb api m.model_id
          [⟨"user", question⟩] (7/10))) h.models

/-- Embeds `get_initial_answers` (lines 68-77): gather all calls, then populate
the answers dict by task submission index. -/
def get_initial_answers (ob : OpenaiBackend) (gb : GeminiBackend) (h : Handler)
    (question : String) : Except String (List (String × AnswerEntry)) :=
  match initialTasks ob gb h question with
  | Except.error e => Except.error e
  | Except.ok results =>
    Except.ok ((h.models.zip results).foldl
      (fun d p => dictInsert d p.1.name (mkEntry p.1 p.2)) [])

/-- One element of `answer_list` (line 80): note the two-character
sequence backslash-n after the colon — the Python source reads
`f"Answer from ...:\\n..."`, a literal backslash and letter n inside a
regular f-string, not a newline. -/
def answerBlock (name content : String) : String :=
  "Answer from " ++ name ++ ":\\n" ++ content

/-- Embeds `answer_list` (line 80): the blocks for the entries that carry a
`content` key, in dict order. -/
def contentEntries (answers : List (String × AnswerEntry)) : List String :=
  answers.filterMap (fun p => p.2.content.map (fun c => answerBlock p.2.name c))

/-- The comparison prompt f-string (lines 84-91); these line breaks are
real newlines in the Python triple-quoted string. -/
def comparisonPrompt (question a0 a1 : String) : String :=
  "The user asked: \"" ++ question ++ "\"\nI received two answers:\n---\n"
    ++ a0 ++ "\n---\n" ++ a1
    ++ "\n---\nDo these answers provide the same core information? Respond with only YES or NO."

/-- Python `str.strip()`: drop surrounding whitespace. -/
def pyStrip (s : String) : String :=
  String.mk
    (((s.data.dropWhile Char.isWhitespace).reverse.dropWhile Char.isWhitespace).reverse)

/-- Python `str.upper()`: upper-case every character. -/
def pyUpper (s : String) : String :=
  String.mk (s.data.map Char.toUpper)

/-- Embeds `are_answers_similar` (lines 79-95). -/
def are_answers_similar (ob : OpenaiBackend) (gb : GeminiBackend) (h : Handler)
    (question : String) (answers : List (String × AnswerEntry)) : Bool :=
  match contentEntries answers with
  | a0 :: a1 :: _ =>
    let prompt := comparisonPrompt question a0 a1
    let result := makeApiCall ob gb h.judge_api h.judge_model_id
      [⟨"user", prompt⟩] 0
    pyUpper (pyStrip result.contentOrEmpty) == "YES"
  | _ => true

/-- Embeds `next((m for m in self.models if m["name"] != model_name), None)`
(line 101). -/
def otherModel (models : List ModelCfg) (name : String) : Option ModelCfg :=
  models.find? (fun m => m.name != name)

/-- The feedback prompt f-string (lines 106-109). -/
def revisionPrompt (question own other : String) : String :=
  "Original question: \"" ++ question ++ "\"\nYour answer: \"" ++ own
    ++ "\"\nThe other model\x27s answer: \"" ++ other
    ++ "\"\nReview both. If yours is best, defend it. Otherwise, provide a revised answer. Respond with only the final answer."

/-- The body of the revision loop for one model (lines 99-113): skip when
there is no counterpart or either name is missing from the dict
(line 103); otherwise the f-string accesses both entries' `content`
(KeyError when absent) and the task accesses the model's `api` key
(KeyError when absent). -/
def revisionTaskFor (ob : OpenaiBackend) (gb : GeminiBackend)
    (models : List ModelCfg) (question : String)
    (orig : List (String × AnswerEntry)) (m : ModelCfg) :
    Except String (Option (String × CallResult)) :=
  match otherModel models m.name with
  | none => Except.ok none
  | some o =>
    match dictGet orig m.name, dictGet orig o.name with
    | some own, some oth =>
      match own.content, oth.content with
      | some ownC, some othC =>
        match m.api with
        | none => Except.error "KeyError: api"
        | some api =>
          Except.ok (some (m.name,
            makeApiCall ob gb api m.model_id
              [⟨"user", revisionPrompt question ownC othC⟩] (7/10)))
      | _, _ => Except.error "KeyError: content"
    | _, _ => Except.ok none

/-- The skip condition of line 103, as a predicate on one model: no
counterpart, or either model name missing from the initial dict. -/
def revisionSkipped (models : List ModelCfg)
    (orig : List (String × AnswerEntry)) (m : ModelCfg) : Bool :=
  match otherModel models m.name with
  | none => true
  | some o => !(dictGet orig m.name).isSome || !(dictGet orig o.name).isSome

/-- The `tasks` list of `(model_name, call)` pairs (lines 98-113). -/
def revisionTasks (ob : OpenaiBackend) (gb : GeminiBackend) (h : Handler)
    (question : String) (orig : List (String × AnswerEntry)) :
    Except String (List (String × CallResult)) :=
  match exceptMap (revisionTaskFor ob gb h.models question orig) h.models with
  | Except.error e => Except.error e
  | Except.ok opts => Except.ok opts.reduceOption

/-- The per-result update of lines 120-123: on success replace `content`
and record `original_content`; on failure attach `error` on top of the
original entry (the original `content` key is kept). -/
def reviseEntry (base : AnswerEntry) (r : CallResult) : AnswerEntry :=
  match r with
  | .ok c => { base with content := some c, original_content := base.content }
  | .err e => { base with error := some e }

/-- The `revised_answers` dict construction (lines 117-124); the
`original_answers[model_name]` lookup raises KeyError when absent. -/
def buildRevised (orig : List (String × AnswerEntry))
    (tasks : List (String × CallResult)) :
    Except String (List (String × AnswerEntry)) :=
  exceptFoldl (fun d t =>
    match dictGet orig t.1 with
    | none => Except.error "KeyError: model_name"
    | some base => Except.ok (dictInsert d t.1 (reviseEntry base t.2))) [] tasks

/-- Embeds `get_revised_answers` (lines 97-125). -/
def get_revised_answers (ob : OpenaiBackend) (gb : GeminiBackend) (h : Handler)
    (question : String) (orig : List (String × AnswerEntry)) :
    Except String (List (String × AnswerEntry)) :=
  match revisionTasks ob gb h question orig with
  | Except.error e => Except.error e
  | Except.ok tasks => buildRevised orig tasks

/-- Embeds `app.py` line 136: label every initial entry `Original` and promote
the provider name to `display_name`. -/
def labelInitial (initial : List (String × AnswerEntry)) :
    List (String × AnswerEntry) :=
  initial.map (fun p => (p.1,
    { p.2 with
      label := some "Original",
      label_class := some "original-label",
      display_name := some p.2.name }))

/-- Python `a if a is not none else b` on optional dict keys: the first
value when the key is present, else the second. -/
def optOr (a b : Option α) : Option α :=
  match a with
  | some x => some x
  | none => b

/-- Embeds `results[model_name].update(\x7b**data, "label": "Revised",
"label_class": "revised-label"\x7d)` (line 155): keys present in the
update dict overwrite, absent keys keep the base entry's values. -/
def applyUpdate (base data : AnswerEntry) : AnswerEntry :=
  { success := data.success,
    content := optOr data.content base.content,
    error := optOr data.error base.error,
    name := data.name,
    model_id := data.model_id,
    api := optOr data.api base.api,
    display_name := optOr data.display_name base.display_name,
    original_content := optOr data.original_content base.original_content,
    label := some "Revised",
    label_class := some "revised-label" }

/-- The merge loop of `process_validation` (lines 152-155): back up
`content` into `original_content` when present, then update with the
revised data. -/
def mergeRevised (results revised : List (String × AnswerEntry)) :
    Except String (List (String × AnswerEntry)) :=
  exceptFoldl (fun res p =>
    match dictGet res p.1 with
    | none => Except.error "KeyError: model_name"
    | some base =>
      let base' := if base.content.isSome
        then { base with original_content := base.content } else base
      Except.ok (dictInsert res p.1 (applyUpdate base' p.2))) results revised

/-- Embeds `process_validation` (lines 127-161), restricted to the result-set
computation (progress reporting and session state are presentation
concerns). -/
def process_validation (ob : OpenaiBackend) (gb : GeminiBackend) (h : Handler)
    (question : String) : Except String (List (String × AnswerEntry)) :=
  match get_initial_answers ob gb h question with
  | Except.error e => Except.error e
  | Except.ok initial =>
    let results := labelInitial initial
    if are_answers_similar ob gb h question initial then
      Except.ok results
    else
      match get_revised_answers ob gb h question initial with
      | Except.error e => Except.error e
      | Except.ok revised => mergeRevised results revised

/-- The label shown for one entry in the results loop of `app.py`
(lines 236-246): `none` when the error branch is taken, otherwise the
(possibly Defended-reclassified) label. -/
def displayLabel (e : AnswerEntry) : Option String :=
  if e.error.isSome then none
  else
    let label := e.label.getD "Answer"
    let oc := optOr e.original_content e.content
    if label == "Revised" && e.content == oc then some "Defended" else some label

/-- Completion events of one `asyncio.gather` batch: the schedule `σ`
lists task indices in the order the calls happen to complete; each event
carries that task's result. -/
def completeInOrder (tasks : List CallResult) (σ : List Nat) :
    List (Nat × CallResult) :=
  σ.filterMap (fun j => (tasks.get? j).map (fun r => (j, r)))

/-- The join of `asyncio.gather`: results are handed back slot-by-slot
in task submission order, each slot filled from whichever completion
event carries its index. -/
def joinInOrder (n : Nat) (events : List (Nat × CallResult)) :
    List (Option CallResult) :=
  (List.range n).map (fun i => (events.find? (fun p => p.1 == i)).map (fun p => p.2))

/-! ### Concrete runs used by witnesses and counterexamples -/

/-- Initial result set when both backends fail (no entry has content). -/
def c2wInitial : List (String × AnswerEntry) :=
  (get_initial_answers (fun _ _ _ => Except.error "down")
    (fun _ _ _ => Except.error "down") (LLMHandler.ofKeys "k1" "k2") "Q").toOption.getD []

/-- Two concrete content-bearing entries for exercising the judge. -/
def c1wAnswers : List (String × AnswerEntry) :=
  [ ("A", mkEntry { name := "A", model_id := "a", api := some "openai" }
      (CallResult.ok "ans1")),
    ("B", mkEntry { name := "B", model_id := "b", api := some "gemini" }
      (CallResult.ok "ans2")) ]

/-- Backends for a fully successful two-provider run. -/
def c9ob : OpenaiBackend := fun _ _ _ => Except.ok "A"

/-- Gemini backend for a fully successful two-provider run. -/
def c9gb : GeminiBackend := fun _ _ _ => Except.ok "B"

/-- The submitted task results of that run. -/
def c9tasks : List CallResult :=
  (initialTasks c9ob c9gb (LLMHandler.ofKeys "k1" "k2") "Q").toOption.getD []

/-- The initial answers dict of that run. -/
def c9ans : List (String × AnswerEntry) :=
  (get_initial_answers c9ob c9gb (LLMHandler.ofKeys "k1" "k2") "Q").toOption.getD []

/-- OpenAI backend that answers the raw question and raises on any other
prompt (so its revision call fails). -/
def c4ob : OpenaiBackend := fun _ msgs _ =>
  if msgs = [⟨"user", "Q"⟩] then Except.ok "A" else Except.error "rev boom"

/-- Gemini backend that always succeeds. -/
def c4gb : GeminiBackend := fun _ p _ =>
  if p = "Q" then Except.ok "B" else Except.ok "B2"

/-- The initial result set of that run (both providers succeed). -/
def c4orig : List (String × AnswerEntry) :=
  (get_initial_answers c4ob c4gb (LLMHandler.ofKeys "k1" "k2") "Q").toOption.getD []

/-- The revision result set of that run (the OpenAI revision call
fails). -/
def c4revised : List (String × AnswerEntry) :=
  (get_revised_answers c4ob c4gb (LLMHandler.ofKeys "k1" "k2") "Q" c4orig).toOption.getD []

/-- OpenAI backend that always raises, so the GPT initial entry carries
an error and no content. -/
def c3ob : OpenaiBackend := fun _ _ _ => Except.error "boom"

/-- Gemini backend that always succeeds. -/
def c3gb : GeminiBackend := fun _ _ _ => Except.ok "hello"

/-- Initial result set in which the GPT entry is present but has no
content. -/
def c3orig : List (String × AnswerEntry) :=
  (get_initial_answers c3ob c3gb (LLMHandler.ofKeys "k1" "k2") "Q").toOption.getD []

/-- A fallback pair used only as a `List.getD` default. -/
def dummyEntry : String × AnswerEntry :=
  ("", { success := false, name := "", model_id := "" })

/-- First entry of the concrete initial result set. -/
def c4gptInit : String × AnswerEntry := c4orig.getD 0 dummyEntry

/-- First entry of the concrete revision result set. -/
def c4gptRev : String × AnswerEntry := c4revised.getD 0 dummyEntry

/-- OpenAI backend for a full disagree-then-defend run: answers "A",
judges "NO", and re-answers "A" on revision (a defence). -/
def c5ob : OpenaiBackend := fun _ msgs _ =>
  if msgs = [⟨"user", "Q"⟩] then Except.ok "A"
  else if msgs = [⟨"user", comparisonPrompt "Q" (answerBlock "GPT-4o-mini" "A")
      (answerBlock "Gemini-1.5-Flash" "B")⟩] then Except.ok "NO"
  else Except.ok "A"

/-- Gemini backend for that run: answers "B", revises to "B-revised". -/
def c5gb : GeminiBackend := fun _ p _ =>
  if p = "Q" then Except.ok "B" else Except.ok "B-revised"

/-- The final result set of that run. -/
def c5final : List (String × AnswerEntry) :=
  (process_validation c5ob c5gb (LLMHandler.ofKeys "k1" "k2") "Q").toOption.getD []

/-- The GPT entry of that final result set (a defended revision). -/
def c5gpt : String × AnswerEntry := c5final.getD 0 dummyEntry

/-- The Gemini entry of that final result set (a changed revision). -/
def c5gem : String × AnswerEntry := c5final.getD 1 dummyEntry

/-! ### Library lemmas about the dict embedding and the exception-aware loops -/

theorem mem_dictInsert {α : Type} {d : List (String × α)} {k : String} {v : α}
    {p : String × α} (hp : p ∈ dictInsert d k v) : p ∈ d ∨ p = (k, v) := by
  unfold dictInsert at hp
  split at hp
  · obtain ⟨q, hq, hmap⟩ := List.mem_map.1 hp
    by_cases hk : (q.1 == k) = true
    · right
      rw [if_pos hk] at hmap
      exact hmap.symm
    · left
      rw [if_neg hk] at hmap
      exact hmap ▸ hq
  · rcases List.mem_append.1 hp with h | h
    · exact Or.inl h
    · right
      simpa using h

theorem dictContains_append_single {α : Type} (d : List (String × α))
    (p : String × α) (k : String) :
    dictContains (d ++ [p]) k = (dictContains d k || (p.1 == k)) := by
  simp [dictContains, List.any_append]

theorem dictInsert_of_not_contains {α : Type} {d : List (String × α)}
    {k : String} (v : α) (h : dictContains d k = false) :
    dictInsert d k v = d ++ [(k, v)] := by
  simp [dictInsert, h]

theorem dictGet_eq_none_of_not_mem {α : Type} {d : List (String × α)}
    {k : String} (h : k ∉ d.map Prod.fst) : dictGet d k = none := by
  have hf : List.find? (fun p => p.1 == k) d = none := by
    apply List.find?_eq_none.2
    intro p hp
    simp only [beq_iff_eq]
    intro hk
    exact h (hk ▸ List.mem_map.2 ⟨p, hp, rfl⟩)
  simp [dictGet, hf]

theorem dictGet_isSome_entry {α : Type} {d : List (String × α)} {k : String}
    {v : α} (h : dictGet d k = some v) : (k, v) ∈ d := by
  unfold dictGet at h
  obtain ⟨p, hfind, hv⟩ := Option.map_eq_some'.1 h
  have hmem := List.mem_of_find?_eq_some hfind
  have hpk : p.1 = k := by simpa using List.find?_some hfind
  have : p = (k, v) := by
    cases p
    simp_all
  exact this ▸ hmem

theorem exceptMap_ok_length {α β : Type} {f : α → Except String β}
    {l : List α} {bs : List β} (h : exceptMap f l = Except.ok bs) :
    bs.length = l.length := by
  induction l generalizing bs with
  | nil =>
    simp only [exceptMap] at h
    cases h
    rfl
  | cons a l ih =>
    simp only [exceptMap] at h
    cases hfa : f a with
    | error e => rw [hfa] at h; cases h
    | ok b =>
      rw [hfa] at h
      cases hml : exceptMap f l with
      | error e => rw [hml] at h; cases h
      | ok bs' =>
        rw [hml] at h
        cases h
        simp [ih hml]

theorem exceptMap_append_error {α β : Type} (f : α → Except String β)
    (l : List α) (bad : α) (e : String) (hbad : f bad = Except.error e) :
    ∃ e', exceptMap f (l ++ [bad]) = Except.error e' := by
  induction l with
  | nil => exact ⟨e, by simp [exceptMap, hbad]⟩
  | cons a l ih =>
    obtain ⟨e', he'⟩ := ih
    cases hfa : f a with
    | error ea => exact ⟨ea, by simp [exceptMap, hfa]⟩
    | ok b => exact ⟨e', by simp [exceptMap, hfa, he']⟩

theorem foldl_dictInsert_mem {α γ : Type} (key : γ → String) (val : γ → α)
    (P : String × α → Prop) :
    ∀ (l : List γ) (acc : List (String × α)),
      (∀ p ∈ acc, P p) → (∀ x ∈ l, P (key x, val x)) →
      ∀ p ∈ l.foldl (fun d x => dictInsert d (key x) (val x)) acc, P p := by
  intro l
  induction l with
  | nil =>
    intro acc hacc _ p hp
    exact hacc p hp
  | cons a l ih =>
    intro acc hacc hval p hp
    refine ih (dictInsert acc (key a) (val a)) ?_ ?_ p hp
    · intro q hq
      rcases mem_dictInsert hq with h | h
      · exact hacc q h
      · exact h ▸ hval a (List.mem_cons_self a l)
    · intro x hx
      exact hval x (List.mem_cons_of_mem a hx)

theorem foldl_dictInsert_eq {α γ : Type} (key : γ → String) (val : γ → α) :
    ∀ (l : List γ) (acc : List (String × α)),
      (l.map key).Nodup →
      (∀ x ∈ l, dictContains acc (key x) = false) →
      l.foldl (fun d x => dictInsert d (key x) (val x)) acc =
        acc ++ l.map (fun x => (key x, val x)) := by
  intro l
  induction l with
  | nil =>
    intro acc _ _
    simp
  | cons a l ih =>
    intro acc hnd hdisj
    have hna : key a ∉ l.map key := (List.nodup_cons.1 (by simpa using hnd)).1
    rw [List.foldl_cons,
      dictInsert_of_not_contains (val a) (hdisj a (List.mem_cons_self a l)),
      ih (acc ++ [(key a, val a)]) (List.nodup_cons.1 (by simpa using hnd)).2 ?_]
    · simp
    · intro x hx
      rw [dictContains_append_single, hdisj x (List.mem_cons_of_mem a hx)]
      simp only [Bool.false_or]
      simp only [beq_eq_false_iff_ne, ne_eq]
      intro hkk
      exact hna (hkk ▸ List.mem_map.2 ⟨x, hx, rfl⟩)

theorem mem_completeInOrder {tasks : List CallResult} {σ : List Nat}
    {p : Nat × CallResult} (hp : p ∈ completeInOrder tasks σ) :
    tasks.get? p.1 = some p.2 := by
  unfold completeInOrder at hp
  obtain ⟨j, hj, hjp⟩ := List.mem_filterMap.1 hp
  cases hg : tasks.get? j with
  | none => rw [hg] at hjp; cases hjp
  | some r =>
    rw [hg] at hjp
    cases hjp
    simpa using hg

theorem range_map_get (l : List α) :
    (List.range l.length).map (fun i => l.get? i) = l.map some := by
  induction l with
  | nil => rfl
  | cons a l ih =>
    rw [List.length_cons, List.range_succ_eq_map, List.map_cons, List.map_map,
      List.map_cons]
    exact congrArg (some a :: ·) ih

theorem joinInOrder_of_perm {tasks : List CallResult} {σ : List Nat}
    (hperm : σ.Perm (List.range tasks.length)) :
    joinInOrder tasks.length (completeInOrder tasks σ) = tasks.map some := by
  unfold joinInOrder
  have hpt : ∀ i ∈ List.range tasks.length,
      ((completeInOrder tasks σ).find? (fun p => p.1 == i)).map (fun p => p.2) =
        tasks.get? i := ?_
  case _ => rw [List.map_congr_left hpt, range_map_get]
  intro i hi
  have hilt : i < tasks.length := List.mem_range.1 hi
  obtain ⟨ti, hti⟩ : ∃ t, tasks.get? i = some t :=
    ⟨_, List.get?_eq_get hilt⟩
  have hmem : (i, ti) ∈ completeInOrder tasks σ := by
    unfold completeInOrder
    exact List.mem_filterMap.2 ⟨i, hperm.mem_iff.2 hi, by rw [hti]; rfl⟩
  cases hf : (completeInOrder tasks σ).find? (fun p => p.1 == i) with
  | none => exact absurd (List.find?_eq_none.1 hf _ hmem) (by simp)
  | some p =>
    have hp1 : p.1 = i := by simpa using List.find?_some hf
    have hgp := mem_completeInOrder (List.mem_of_find?_eq_some hf)
    rw [hp1] at hgp
    rw [List.get?_eq_getElem?] at hgp
    simp [hgp]

/-! ### C9: the initial gather is keyed by provider name, independently of
completion order -/

/-- C9.  For a configuration with distinct provider names and any
completion schedule (any permutation of the task indices), the gather
join hands results back in submission order, and the initial result set
has exactly one entry per provider, keyed by provider name in
registration order, each holding that provider's own call result. -/
theorem initial_gather_keyed_and_schedule_independent
    (ob : OpenaiBackend) (gb : GeminiBackend) (h : Handler) (q : String)
    (tasks : List CallResult) (σ : List Nat) (ans : List (String × AnswerEntry))
    (hnd : (h.models.map (fun m => m.name)).Nodup)
    (hperm : σ.Perm (List.range tasks.length))
    (htasks : initialTasks ob gb h q = Except.ok tasks)
    (hans : get_initial_answers ob gb h q = Except.ok ans) :
    joinInOrder tasks.length (completeInOrder tasks σ) = tasks.map some ∧
    ans = (h.models.zip tasks).map (fun p => (p.1.name, mkEntry p.1 p.2)) ∧
    ans.map Prod.fst = h.models.map (fun m => m.name) := by
  have hlen : tasks.length = h.models.length :=
    exceptMap_ok_length htasks
  have hzipfst : (h.models.zip tasks).map Prod.fst = h.models :=
    List.map_fst_zip h.models tasks (le_of_eq hlen.symm)
  have hzipname : (h.models.zip tasks).map (fun p => p.1.name) =
      h.models.map (fun m => m.name) := by
    have := congrArg (List.map (fun m : ModelCfg => m.name)) hzipfst
    rwa [List.map_map] at this
  have hans2 : ans = (h.models.zip tasks).map
      (fun p => (p.1.name, mkEntry p.1 p.2)) := by
    unfold get_initial_answers at hans
    rw [htasks] at hans
    cases hans
    rw [foldl_dictInsert_eq (fun p => p.1.name) (fun p => mkEntry p.1 p.2)
      (h.models.zip tasks) [] (by rw [hzipname]; exact hnd) (by intro x _; rfl)]
    simp
  refine ⟨joinInOrder_of_perm hperm, hans2, ?_⟩
  rw [hans2, List.map_map]
  exact hzipname

/-- Witness for C9 at a concrete run whose completion schedule [1, 0]
finishes the second call first. -/
theorem initial_gather_keyed_and_schedule_independent_witness :
    ((LLMHandler.ofKeys "k1" "k2").models.map (fun m => m.name)).Nodup ∧
    List.Perm [1, 0] (List.range c9tasks.length) ∧
    (joinInOrder c9tasks.length (completeInOrder c9tasks [1, 0]) =
        c9tasks.map some ∧
      c9ans = ((LLMHandler.ofKeys "k1" "k2").models.zip c9tasks).map
        (fun p => (p.1.name, mkEntry p.1 p.2)) ∧
      c9ans.map Prod.fst =
        (LLMHandler.ofKeys "k1" "k2").models.map (fun m => m.name)) :=
  ⟨by decide, by decide,
    initial_gather_keyed_and_schedule_independent c9ob c9gb
      (LLMHandler.ofKeys "k1" "k2") "Q" c9tasks [1, 0] c9ans
      (by decide) (by decide) rfl rfl⟩

theorem buildRevised_mem (orig : List (String × AnswerEntry))
    (P : String × AnswerEntry → Prop)
    (hrevP : ∀ name base r, P (name, reviseEntry base r)) :
    ∀ (tasks : List (String × CallResult)) (acc d : List (String × AnswerEntry)),
      (∀ p ∈ acc, P p) →
      exceptFoldl (fun d t =>
        match dictGet orig t.1 with
        | none => Except.error "KeyError: model_name"
        | some base => Except.ok (dictInsert d t.1 (reviseEntry base t.2)))
        acc tasks = Except.ok d →
      ∀ p ∈ d, P p := by
  intro tasks
  induction tasks with
  | nil =>
    intro acc d hacc hfold p hp
    simp only [exceptFoldl] at hfold
    cases hfold
    exact hacc p hp
  | cons t ts ih =>
    intro acc d hacc hfold p hp
    simp only [exceptFoldl] at hfold
    cases hg : dictGet orig t.1 with
    | none => rw [hg] at hfold; cases hfold
    | some base =>
      rw [hg] at hfold
      refine ih (dictInsert acc t.1 (reviseEntry base t.2)) d ?_ hfold p hp
      intro q hq
      rcases mem_dictInsert hq with hmem | heq
      · exact hacc q hmem
      · exact heq ▸ hrevP t.1 base t.2

/-! ### C4: content/error shape of the result sets -/

/-- C4 counterexample.  A provider whose initial call succeeded but
whose revision call failed ends up with both a `content` key (kept from
round 1) and an `error` key in the revision result set, contradicting
the claimed XOR. -/
theorem revised_entry_keeps_content_with_error :
    get_initial_answers c4ob c4gb (LLMHandler.ofKeys "k1" "k2") "Q" =
      Except.ok c4orig ∧
    get_revised_answers c4ob c4gb (LLMHandler.ofKeys "k1" "k2") "Q" c4orig =
      Except.ok c4revised ∧
    (dictGet c4revised "GPT-4o-mini").map
      (fun e => (e.content.isSome, e.error.isSome)) = some (true, true) :=
  ⟨rfl, rfl, by decide⟩

/-- C4 amended.  Every entry of the initial gather has content exactly
when it has no error (the XOR holds there); every entry of the revision
gather has content or error, but a failed revision keeps the prior
round's content alongside the new error, so the XOR can fail there. -/
theorem entries_have_content_or_error (ob : OpenaiBackend) (gb : GeminiBackend)
    (h : Handler) (q : String) :
    (∀ init, get_initial_answers ob gb h q = Except.ok init →
      ∀ p ∈ init, p.2.content.isSome = !p.2.error.isSome) ∧
    (∀ orig d, get_revised_answers ob gb h q orig = Except.ok d →
      ∀ p ∈ d, p.2.content.isSome = true ∨ p.2.error.isSome = true) := by
  constructor
  · intro init hinit p hp
    unfold get_initial_answers at hinit
    cases htasks : initialTasks ob gb h q with
    | error e => rw [htasks] at hinit; cases hinit
    | ok tasks =>
      rw [htasks] at hinit
      cases hinit
      refine foldl_dictInsert_mem (fun p => p.1.name) (fun p => mkEntry p.1 p.2)
        (fun p => p.2.content.isSome = !p.2.error.isSome)
        (h.models.zip tasks) [] (by intro q hq; cases hq) ?_ p hp
      intro x _
      rcases x with ⟨m, r⟩
      cases r <;> simp [mkEntry]
  · intro orig d hrev p hp
    unfold get_revised_answers at hrev
    cases ht : revisionTasks ob gb h q orig with
    | error e => rw [ht] at hrev; cases hrev
    | ok tasks =>
      rw [ht] at hrev
      refine buildRevised_mem orig
        (fun p => p.2.content.isSome = true ∨ p.2.error.isSome = true)
        ?_ tasks [] d (by intro q hq; cases hq) hrev p hp
      intro name base r
      cases r <;> simp [reviseEntry]

/-- Witness for C4's amended statement on the concrete run behind the
counterexample. -/
theorem entries_have_content_or_error_witness :
    (get_initial_answers c4ob c4gb (LLMHandler.ofKeys "k1" "k2") "Q" =
      Except.ok c4orig ∧
     c4gptInit.2.content.isSome = !c4gptInit.2.error.isSome) ∧
    (get_revised_answers c4ob c4gb (LLMHandler.ofKeys "k1" "k2") "Q" c4orig =
      Except.ok c4revised ∧
     (c4gptRev.2.content.isSome = true ∨ c4gptRev.2.error.isSome = true)) :=
  ⟨⟨rfl, (entries_have_content_or_error c4ob c4gb (LLMHandler.ofKeys "k1" "k2")
      "Q").1 c4orig rfl c4gptInit (by decide)⟩,
   ⟨rfl, (entries_have_content_or_error c4ob c4gb (LLMHandler.ofKeys "k1" "k2")
      "Q").2 c4orig c4revised rfl c4gptRev (by decide)⟩⟩

theorem revisionTaskFor_skip (ob : OpenaiBackend) (gb : GeminiBackend)
    (models : List ModelCfg) (q : String) (orig : List (String × AnswerEntry))
    (m : ModelCfg) (hskip : revisionSkipped models orig m = true) :
    revisionTaskFor ob gb models q orig m = Except.ok none := by
  cases ho : otherModel models m.name with
  | none => simp [revisionTaskFor, ho]
  | some o =>
    cases hg1 : dictGet orig m.name with
    | none => simp [revisionTaskFor, ho, hg1]
    | some own =>
      cases hg2 : dictGet orig o.name with
      | none => simp [revisionTaskFor, ho, hg1, hg2]
      | some oth =>
        exfalso
        simp [revisionSkipped, ho, hg1, hg2] at hskip

theorem revisionTaskFor_call (ob : OpenaiBackend) (gb : GeminiBackend)
    (models : List ModelCfg) (q : String) (orig : List (String × AnswerEntry))
    (m : ModelCfg) (hskip : revisionSkipped models orig m = false)
    (hapi : m.api.isSome = true)
    (hcontent : ∀ p ∈ orig, p.2.content.isSome = true) :
    ∃ r, revisionTaskFor ob gb models q orig m = Except.ok (some (m.name, r)) := by
  cases ho : otherModel models m.name with
  | none => exfalso; simp [revisionSkipped, ho] at hskip
  | some o =>
    cases hg1 : dictGet orig m.name with
    | none => exfalso; simp [revisionSkipped, ho, hg1] at hskip
    | some own =>
      cases hg2 : dictGet orig o.name with
      | none => exfalso; simp [revisionSkipped, ho, hg1, hg2] at hskip
      | some oth =>
        have hoc : own.content.isSome = true := by
          simpa using hcontent _ (dictGet_isSome_entry hg1)
        have htc : oth.content.isSome = true := by
          simpa using hcontent _ (dictGet_isSome_entry hg2)
        obtain ⟨oc, hoc'⟩ := Option.isSome_iff_exists.1 hoc
        obtain ⟨tc, htc'⟩ := Option.isSome_iff_exists.1 htc
        obtain ⟨api, hapi'⟩ := Option.isSome_iff_exists.1 hapi
        refine ⟨makeApiCall ob gb api m.model_id
          [⟨"user", revisionPrompt q oc tc⟩] (7/10), ?_⟩
        simp [revisionTaskFor, ho, hg1, hg2, hoc', htc', hapi']

theorem revisionTasks_names_aux (ob : OpenaiBackend) (gb : GeminiBackend)
    (models : List ModelCfg) (q : String) (orig : List (String × AnswerEntry))
    (hcontent : ∀ p ∈ orig, p.2.content.isSome = true) :
    ∀ l : List ModelCfg, (∀ m ∈ l, m.api.isSome = true) →
      ∃ opts, exceptMap (revisionTaskFor ob gb models q orig) l = Except.ok opts ∧
        opts.reduceOption.map Prod.fst =
          (l.filter (fun m => !revisionSkipped models orig m)).map
            (fun m => m.name) := by
  intro l
  induction l with
  | nil => exact fun _ => ⟨[], rfl, by simp⟩
  | cons m l ih =>
    intro hapi
    obtain ⟨opts, hopts, hnames⟩ := ih (fun x hx => hapi x (List.mem_cons_of_mem m hx))
    by_cases hsk : revisionSkipped models orig m = true
    · have hm := revisionTaskFor_skip ob gb models q orig m hsk
      refine ⟨none :: opts, by simp [exceptMap, hm, hopts], ?_⟩
      simp [List.reduceOption_cons_of_none, hnames, List.filter_cons, hsk]
    · have hsk' : revisionSkipped models orig m = false := by
        simpa using hsk
      obtain ⟨r, hm⟩ := revisionTaskFor_call ob gb models q orig m hsk'
        (hapi m (List.mem_cons_self m l)) hcontent
      refine ⟨some (m.name, r) :: opts, by simp [exceptMap, hm, hopts], ?_⟩
      simp [List.reduceOption_cons_of_some, hnames, List.filter_cons, hsk']

theorem buildRevised_keys (orig : List (String × AnswerEntry)) :
    ∀ (tasks : List (String × CallResult)) (acc : List (String × AnswerEntry)),
      (∀ t ∈ tasks, (dictGet orig t.1).isSome = true) →
      (tasks.map Prod.fst).Nodup →
      (∀ t ∈ tasks, dictContains acc t.1 = false) →
      ∃ d, exceptFoldl (fun d t =>
          match dictGet orig t.1 with
          | none => Except.error "KeyError: model_name"
          | some base => Except.ok (dictInsert d t.1 (reviseEntry base t.2)))
        acc tasks = Except.ok d ∧
        d.map Prod.fst = acc.map Prod.fst ++ tasks.map Prod.fst := by
  intro tasks
  induction tasks with
  | nil => exact fun acc _ _ _ => ⟨acc, rfl, by simp⟩
  | cons t ts ih =>
    intro acc horig hnd hdisj
    obtain ⟨base, hbase⟩ := Option.isSome_iff_exists.1
      (horig t (List.mem_cons_self t ts))
    have hstep : dictInsert acc t.1 (reviseEntry base t.2) =
        acc ++ [(t.1, reviseEntry base t.2)] :=
      dictInsert_of_not_contains _ (hdisj t (List.mem_cons_self t ts))
    have hhead : t.1 ∉ ts.map Prod.fst :=
      (List.nodup_cons.1 (by simpa using hnd)).1
    have hdisj' : ∀ x ∈ ts,
        dictContains (acc ++ [(t.1, reviseEntry base t.2)]) x.1 = false := by
      intro x hx
      rw [dictContains_append_single, hdisj x (List.mem_cons_of_mem t hx)]
      simp only [Bool.false_or, beq_eq_false_iff_ne, ne_eq]
      intro hxx
      exact hhead (hxx ▸ List.mem_map.2 ⟨x, hx, rfl⟩)
    obtain ⟨d, hd, hdkeys⟩ := ih (acc ++ [(t.1, reviseEntry base t.2)])
      (fun x hx => horig x (List.mem_cons_of_mem t hx))
      (List.nodup_cons.1 (by simpa using hnd)).2 hdisj'
    refine ⟨d, ?_, ?_⟩
    · simp only [exceptFoldl, hbase]
      rw [hstep]
      exact hd
    · rw [hdkeys]
      simp

/-! ### C3: which providers are skipped or revised -/

/-- C3 counterexample.  On an initial result set where the GPT entry is
present but carries an error (no content) — exactly what a failed
initial call produces — the revision step does not skip that provider:
the prompt construction raises KeyError, aborting the whole revision. -/
theorem revision_raises_on_missing_content :
    get_initial_answers c3ob c3gb (LLMHandler.ofKeys "k1" "k2") "Q" =
      Except.ok c3orig ∧
    (dictGet c3orig "GPT-4o-mini").isSome = true ∧
    (dictGet c3orig "GPT-4o-mini").map (fun e => e.content) = some none ∧
    get_revised_answers c3ob c3gb (LLMHandler.ofKeys "k1" "k2") "Q" c3orig =
      Except.error "KeyError: content" :=
  ⟨rfl, by decide, by decide, rfl⟩

/-- C3 amended.  The code's skip guard tests dict membership, not
content: a provider is skipped exactly when it has no counterpart or
its own or its counterpart's name is missing from the initial dict.
When every present entry carries content (and every model has an api
tag), the revision step succeeds, each unskipped provider receives
exactly one revision call (the task list has exactly its name, in
registration order), and each skipped provider is absent from the
revision output, keeping its initial entry; a present entry without
content instead aborts the whole step with a KeyError (see the
counterexample). -/
theorem revision_skip_guard_and_calls (ob : OpenaiBackend) (gb : GeminiBackend)
    (h : Handler) (q : String) (orig : List (String × AnswerEntry))
    (hnd : (h.models.map (fun m => m.name)).Nodup)
    (hapi : ∀ m ∈ h.models, m.api.isSome = true)
    (hcontent : ∀ p ∈ orig, p.2.content.isSome = true) :
    ∃ ts d, revisionTasks ob gb h q orig = Except.ok ts ∧
      ts.map Prod.fst = ((h.models.filter
        (fun m => !revisionSkipped h.models orig m)).map (fun m => m.name)) ∧
      get_revised_answers ob gb h q orig = Except.ok d ∧
      d.map Prod.fst = ts.map Prod.fst ∧
      ∀ m ∈ h.models, revisionSkipped h.models orig m = true →
        dictGet d m.name = none := by
  obtain ⟨opts, hopts, hnames⟩ :=
    revisionTasks_names_aux ob gb h.models q orig hcontent h.models hapi
  have hts : revisionTasks ob gb h q orig = Except.ok opts.reduceOption := by
    simp [revisionTasks, hopts]
  have hfsub : List.Sublist
      ((h.models.filter (fun m => !revisionSkipped h.models orig m)).map
        (fun m => m.name))
      (h.models.map (fun m => m.name)) :=
    (List.filter_sublist h.models).map (fun m => m.name)
  have hndts : (opts.reduceOption.map Prod.fst).Nodup := by
    rw [hnames]
    exact hnd.sublist hfsub
  have htsorig : ∀ t ∈ opts.reduceOption, (dictGet orig t.1).isSome = true := by
    intro t ht
    have hname : t.1 ∈ opts.reduceOption.map Prod.fst :=
      List.mem_map.2 ⟨t, ht, rfl⟩
    rw [hnames] at hname
    obtain ⟨m, hm, hmname⟩ := List.mem_map.1 hname
    have hsk : revisionSkipped h.models orig m = false := by
      simpa using List.of_mem_filter hm
    unfold revisionSkipped at hsk
    cases ho : otherModel h.models m.name with
    | none => rw [ho] at hsk; cases hsk
    | some o =>
      rw [ho] at hsk
      simp only [Bool.or_eq_false_iff, Bool.not_eq_false'] at hsk
      exact hmname ▸ hsk.1
  obtain ⟨d, hd, hdkeys⟩ := buildRevised_keys orig opts.reduceOption []
    htsorig hndts (fun t _ => rfl)
  have hrev : get_revised_answers ob gb h q orig = Except.ok d := by
    unfold get_revised_answers
    rw [hts]
    exact hd
  refine ⟨opts.reduceOption, d, hts, hnames, hrev, by rw [hdkeys]; simp, ?_⟩
  intro m hm hskip
  apply dictGet_eq_none_of_not_mem
  rw [hdkeys]
  simp only [List.map_nil, List.nil_append]
  rw [hnames]
  intro hmem
  obtain ⟨m', hm', hname'⟩ := List.mem_map.1 hmem
  have hm'mem := List.mem_of_mem_filter hm'
  have hmm : m' = m :=
    List.inj_on_of_nodup_map hnd hm'mem hm hname'
  have hcontra := List.of_mem_filter hm'
  simp [hmm, hskip] at hcontra

/-- Witness for C3's amended statement on a fully successful
two-provider run. -/
theorem revision_skip_guard_and_calls_witness :
    ((LLMHandler.ofKeys "k1" "k2").models.map (fun m => m.name)).Nodup ∧
    (∀ m ∈ (LLMHandler.ofKeys "k1" "k2").models, m.api.isSome = true) ∧
    (∀ p ∈ c9ans, p.2.content.isSome = true) ∧
    (∃ ts d, revisionTasks c9ob c9gb (LLMHandler.ofKeys "k1" "k2") "Q" c9ans =
        Except.ok ts ∧
      ts.map Prod.fst = (((LLMHandler.ofKeys "k1" "k2").models.filter
        (fun m => !revisionSkipped (LLMHandler.ofKeys "k1" "k2").models c9ans m)).map
          (fun m => m.name)) ∧
      get_revised_answers c9ob c9gb (LLMHandler.ofKeys "k1" "k2") "Q" c9ans =
        Except.ok d ∧
      d.map Prod.fst = ts.map Prod.fst ∧
      ∀ m ∈ (LLMHandler.ofKeys "k1" "k2").models,
        revisionSkipped (LLMHandler.ofKeys "k1" "k2").models c9ans m = true →
          dictGet d m.name = none) :=
  ⟨by decide, by decide, by decide,
    revision_skip_guard_and_calls c9ob c9gb (LLMHandler.ofKeys "k1" "k2")
      "Q" c9ans (by decide) (by decide) (by decide)⟩

/-! ### C7: adapters convert backend failures into structured results -/

/-- C7.  For every input and every behaviour of the underlying backend
call, each adapter returns a structured result: on a raised exception
`e` it returns the failure result tagged with the backend name, on
success it returns the content; in the embedding the adapters are total
functions into `CallResult`, so no exception ever propagates. -/
theorem adapter_failures_are_structured (ob : OpenaiBackend) (gb : GeminiBackend)
    (model_id : String) (messages : List Message) (temp : Rat) :
    (∀ e, ob model_id messages temp = Except.error e →
      callOpenai ob model_id messages temp = CallResult.err ("OpenAI Error: " ++ e)) ∧
    (∀ c, ob model_id messages temp = Except.ok c →
      callOpenai ob model_id messages temp = CallResult.ok c) ∧
    (∀ e, gb model_id (geminiPrompt messages) temp = Except.error e →
      callGeminiSync gb model_id messages temp = CallResult.err ("Gemini Error: " ++ e)) ∧
    (∀ c, gb model_id (geminiPrompt messages) temp = Except.ok c →
      callGeminiSync gb model_id messages temp = CallResult.ok c) := by
  refine ⟨?_, ?_, ?_, ?_⟩ <;> intro s hs <;> simp [callOpenai, callGeminiSync, hs]

/-- Witness for C7 at concrete backends. -/
theorem adapter_failures_are_structured_witness :
    callOpenai (fun _ _ _ => Except.error "boom") "gpt-4o-mini"
      [⟨"user", "Q"⟩] (7/10) = CallResult.err ("OpenAI Error: " ++ "boom") ∧
    callGeminiSync (fun _ _ _ => Except.ok "hi") "gemini-1.5-flash-latest"
      [⟨"user", "Q"⟩] (7/10) = CallResult.ok "hi" :=
  ⟨(adapter_failures_are_structured (fun _ _ _ => Except.error "boom")
      (fun _ _ _ => Except.ok "hi") "gpt-4o-mini" [⟨"user", "Q"⟩] (7/10)).1 "boom" rfl,
   (adapter_failures_are_structured (fun _ _ _ => Except.error "boom")
      (fun _ _ _ => Except.ok "hi") "gemini-1.5-flash-latest"
      [⟨"user", "Q"⟩] (7/10)).2.2.2 "hi" rfl⟩

/-! ### C8: construction-time credential check -/

/-- C8 counterexample.  Both keys are present (the environment variables
are set), yet construction fails, because the code tests string
truthiness, not presence: a key set to the empty string is rejected. -/
theorem init_present_empty_key_fails :
    (some "" : Option String).isSome = true ∧
    (some "gm-key" : Option String).isSome = true ∧
    LLMHandler.init (some "") (some "gm-key") =
      Except.error "OPENAI_API_KEY not found in .env file." :=
  ⟨rfl, rfl, rfl⟩

/-- C8 amended.  Construction succeeds exactly when both keys are
present and non-empty (Python string truthiness); the failure is raised
in `__init__`, and the adapters take no key argument at all, so no
credential check happens per-call. -/
theorem init_ok_iff_keys_nonempty (o g : Option String) :
    (∃ h, LLMHandler.init o g = Except.ok h) ↔
      ((o.getD "").isEmpty = false ∧ (g.getD "").isEmpty = false) := by
  unfold LLMHandler.init
  by_cases h1 : (o.getD "").isEmpty <;> by_cases h2 : (g.getD "").isEmpty <;>
    simp [h1, h2]

/-! ### C10: models added by add_model break the whole initial gather -/

/-- C10.  A provider registered via `add_model` carries no `api` key, so
a subsequent initial gather over a configuration containing it raises
(the whole gather returns an exception) instead of recording a
per-provider error entry. -/
theorem add_model_has_no_api_and_gather_raises (h : Handler)
    (name model_id : String) (dn : Option String)
    (ob : OpenaiBackend) (gb : GeminiBackend) (q : String) :
    ((add_model h name model_id dn).models.getLast?).map (fun m => m.api) = some none ∧
    ∃ e, get_initial_answers ob gb (add_model h name model_id dn) q = Except.error e := by
  constructor
  · simp [add_model, List.getLast?_concat]
  · obtain ⟨e', he'⟩ := exceptMap_append_error
      (fun m : ModelCfg =>
        match m.api with
        | none => Except.error "KeyError: api"
        | some api =>
            Except.ok (makeApiCall ob gb api m.model_id [⟨"user", q⟩] (7/10)))
      h.models
      { name := name, model_id := model_id, api := none,
        display_name := some (dn.getD name) }
      "KeyError: api" rfl
    exact ⟨e', by simp [get_initial_answers, initialTasks, add_model, he']⟩

/-! ### C6: the judge prompt template -/

/-- C6 evaluation at a failing input: the comparison prompt built by the
code introduces each answer with a literal backslash-n two-character
sequence after the colon, not a newline (the f-string on line 80 of
`llm_handler.py` reads a doubled backslash before the n). -/
theorem judge_prompt_has_literal_backslash_n :
    comparisonPrompt "Q" (answerBlock "A" "x") (answerBlock "B" "y") =
      "The user asked: \"Q\"\nI received two answers:\n---\nAnswer from A:\\nx\n---\nAnswer from B:\\ny\n---\nDo these answers provide the same core information? Respond with only YES or NO." ∧
    answerBlock "A" "x" ≠ "Answer from A:\nx" := by
  refine ⟨rfl, by decide⟩

/-! ### C2: fewer than two content-bearing entries skips judging -/

/-- C2.  When fewer than two initial entries carry content, the
similarity check returns `true` for every judge backend (so no judge
call can influence it), and the whole run returns the labelled initial
results with no revision round. -/
theorem skip_judging_when_few (ob : OpenaiBackend) (gb : GeminiBackend)
    (h : Handler) (q : String) (initial : List (String × AnswerEntry))
    (hinit : get_initial_answers ob gb h q = Except.ok initial)
    (hlt : (contentEntries initial).length < 2) :
    (∀ (ob' : OpenaiBackend) (gb' : GeminiBackend),
      are_answers_similar ob' gb' h q initial = true) ∧
    process_validation ob gb h q = Except.ok (labelInitial initial) := by
  have hsim : ∀ (ob' : OpenaiBackend) (gb' : GeminiBackend),
      are_answers_similar ob' gb' h q initial = true := by
    intro ob' gb'
    unfold are_answers_similar
    rcases hce : contentEntries initial with _ | ⟨a0, _ | ⟨a1, t⟩⟩
    · rfl
    · rfl
    · rw [hce] at hlt
      simp only [List.length_cons] at hlt
      omega
  refine ⟨hsim, ?_⟩
  unfold process_validation
  simp [hinit, hsim ob gb]

/-- Witness for C2: both providers fail, so no entry carries content. -/
theorem skip_judging_when_few_witness :
    (get_initial_answers (fun _ _ _ => Except.error "down")
        (fun _ _ _ => Except.error "down") (LLMHandler.ofKeys "k1" "k2") "Q" =
      Except.ok c2wInitial) ∧
    ((∀ (ob' : OpenaiBackend) (gb' : GeminiBackend),
        are_answers_similar ob' gb' (LLMHandler.ofKeys "k1" "k2") "Q" c2wInitial = true) ∧
      process_validation (fun _ _ _ => Except.error "down")
        (fun _ _ _ => Except.error "down") (LLMHandler.ofKeys "k1" "k2") "Q" =
        Except.ok (labelInitial c2wInitial)) :=
  ⟨rfl, skip_judging_when_few _ _ _ _ c2wInitial rfl (by decide)⟩

/-! ### C1: judge parsing — exactly YES after trim and case fold -/

/-- C1.  With at least two content-bearing entries, the similarity check
agrees exactly when the judge reply succeeded and its content, trimmed
of surrounding whitespace and upper-cased, equals "YES"; in particular a
failed judge call yields disagreement. -/
theorem judge_agrees_iff_trimmed_yes (ko kg : String) (gb : GeminiBackend)
    (q : String) (answers : List (String × AnswerEntry))
    (r : Except String String)
    (h2 : 2 ≤ (contentEntries answers).length) :
    (are_answers_similar (fun _ _ _ => r) gb (LLMHandler.ofKeys ko kg) q answers = true
      ↔ ∃ c, r = Except.ok c ∧ pyUpper (pyStrip c) = "YES") := by
  rcases hce : contentEntries answers with _ | ⟨a0, _ | ⟨a1, t⟩⟩
  · rw [hce] at h2
    simp at h2
  · rw [hce] at h2
    simp at h2
  · unfold are_answers_similar
    rw [hce]
    cases r with
    | ok c =>
      simp [LLMHandler.ofKeys, makeApiCall, callOpenai, CallResult.contentOrEmpty]
    | error e =>
      simp [LLMHandler.ofKeys, makeApiCall, callOpenai, CallResult.contentOrEmpty]
      decide

/-- Witness for C1 at two content-bearing entries and the judge reply
" yes " (extra whitespace, lower case). -/
theorem judge_agrees_iff_trimmed_yes_witness :
    2 ≤ (contentEntries c1wAnswers).length ∧
    (are_answers_similar (fun _ _ _ => Except.ok " yes ")
        (fun _ _ _ => Except.ok "unused") (LLMHandler.ofKeys "k1" "k2") "Q"
        c1wAnswers = true
      ↔ ∃ c, (Except.ok " yes " : Except String String) = Except.ok c ∧
          pyUpper (pyStrip c) = "YES") :=
  ⟨by decide,
   judge_agrees_iff_trimmed_yes "k1" "k2" (fun _ _ _ => Except.ok "unused")
     "Q" c1wAnswers (Except.ok " yes ") (by decide)⟩

/-! ### C5: the Defended label -/

theorem process_agree (ob : OpenaiBackend) (gb : GeminiBackend) (h : Handler)
    (q : String) (initial : List (String × AnswerEntry))
    (hinit : get_initial_answers ob gb h q = Except.ok initial)
    (hsim : are_answers_similar ob gb h q initial = true) :
    process_validation ob gb h q = Except.ok (labelInitial initial) := by
  unfold process_validation
  simp [hinit, hsim]

theorem process_disagree (ob : OpenaiBackend) (gb : GeminiBackend) (h : Handler)
    (q : String) (initial revised : List (String × AnswerEntry))
    (hinit : get_initial_answers ob gb h q = Except.ok initial)
    (hsim : are_answers_similar ob gb h q initial = false)
    (hrev : get_revised_answers ob gb h q initial = Except.ok revised) :
    process_validation ob gb h q = mergeRevised (labelInitial initial) revised := by
  unfold process_validation
  simp [hinit, hsim, hrev]

theorem defended_label_iff (ko kg : String) (ob : OpenaiBackend)
    (gb : GeminiBackend) (q : String) (final : List (String × AnswerEntry))
    (hrun : process_validation ob gb (LLMHandler.ofKeys ko kg) q = Except.ok final) :
    ∀ p ∈ final,
      (p.2.label = some "Original" ∨ p.2.label = some "Revised") ∧
      (displayLabel p.2 = some "Defended" ↔
        (p.2.label = some "Revised" ∧ p.2.error = none ∧
         p.2.original_content.isSome = true ∧
         p.2.content = p.2.original_content)) ∧
      ((p.2.label = some "Revised" ∧ p.2.error = none ∧
        p.2.content ≠ p.2.original_content) →
        displayLabel p.2 = some "Revised") := by
  have hD : get_initial_answers ob gb (LLMHandler.ofKeys ko kg) q = Except.ok
      [("GPT-4o-mini", mkEntry gptCfg
          (makeApiCall ob gb "openai" "gpt-4o-mini" [⟨"user", q⟩] (7/10))),
       ("Gemini-1.5-Flash", mkEntry gemCfg
          (makeApiCall ob gb "gemini" "gemini-1.5-flash-latest" [⟨"user", q⟩] (7/10)))] := rfl
  rcases hc1 : makeApiCall ob gb "openai" "gpt-4o-mini" [⟨"user", q⟩] (7/10) with c1 | e1 <;>
    rcases hc2 : makeApiCall ob gb "gemini" "gemini-1.5-flash-latest" [⟨"user", q⟩] (7/10) with c2 | e2 <;>
    rw [hc1, hc2] at hD
  case ok.ok =>
    cases hsim : are_answers_similar ob gb (LLMHandler.ofKeys ko kg) q
        [("GPT-4o-mini", mkEntry gptCfg (CallResult.ok c1)),
         ("Gemini-1.5-Flash", mkEntry gemCfg (CallResult.ok c2))] with
    | true =>
      rw [process_agree ob gb _ q _ hD hsim] at hrun
      have hfin := (Except.ok.inj hrun).symm
      subst hfin
      intro p hp
      simp only [labelInitial, List.map, mkEntry, List.mem_cons,
        List.not_mem_nil, or_false] at hp
      rcases hp with rfl | rfl <;>
        simp [displayLabel, mkEntry, gptCfg, gemCfg, optOr]
    | false =>
      have hR : get_revised_answers ob gb (LLMHandler.ofKeys ko kg) q
          [("GPT-4o-mini", mkEntry gptCfg (CallResult.ok c1)),
           ("Gemini-1.5-Flash", mkEntry gemCfg (CallResult.ok c2))] = Except.ok
          [("GPT-4o-mini", reviseEntry (mkEntry gptCfg (CallResult.ok c1))
              (makeApiCall ob gb "openai" "gpt-4o-mini"
                [⟨"user", revisionPrompt q c1 c2⟩] (7/10))),
           ("Gemini-1.5-Flash", reviseEntry (mkEntry gemCfg (CallResult.ok c2))
              (makeApiCall ob gb "gemini" "gemini-1.5-flash-latest"
                [⟨"user", revisionPrompt q c2 c1⟩] (7/10)))] := rfl
      rcases hrv1 : makeApiCall ob gb "openai" "gpt-4o-mini"
          [⟨"user", revisionPrompt q c1 c2⟩] (7/10) with d1 | f1 <;>
        rcases hrv2 : makeApiCall ob gb "gemini" "gemini-1.5-flash-latest"
            [⟨"user", revisionPrompt q c2 c1⟩] (7/10) with d2 | f2 <;>
        rw [hrv1, hrv2] at hR <;>
        rw [process_disagree ob gb _ q _ _ hD hsim hR] at hrun
      case ok.ok =>
        have hM : mergeRevised (labelInitial
            [("GPT-4o-mini", mkEntry gptCfg (CallResult.ok c1)),
             ("Gemini-1.5-Flash", mkEntry gemCfg (CallResult.ok c2))])
            [("GPT-4o-mini", reviseEntry (mkEntry gptCfg (CallResult.ok c1))
                (CallResult.ok d1)),
             ("Gemini-1.5-Flash", reviseEntry (mkEntry gemCfg (CallResult.ok c2))
                (CallResult.ok d2))] = Except.ok
            [("GPT-4o-mini",
                { success := true, content := some d1, error := none,
                  name := "GPT-4o-mini", model_id := "gpt-4o-mini",
                  api := some "openai", display_name := some "GPT-4o-mini",
                  original_content := some c1, label := some "Revised",
                  label_class := some "revised-label" }),
             ("Gemini-1.5-Flash",
                { success := true, content := some d2, error := none,
                  name := "Gemini-1.5-Flash", model_id := "gemini-1.5-flash-latest",
                  api := some "gemini", display_name := some "Gemini-1.5-Flash",
                  original_content := some c2, label := some "Revised",
                  label_class := some "revised-label" })] := rfl
        rw [hM] at hrun
        have hfin := (Except.ok.inj hrun).symm
        subst hfin
        intro p hp
        simp only [List.mem_cons, List.not_mem_nil, or_false] at hp
        rcases hp with rfl | rfl
        · by_cases hdc : d1 = c1 <;> simp [displayLabel, optOr, hdc]
        · by_cases hdc : d2 = c2 <;> simp [displayLabel, optOr, hdc]
      case ok.err =>
        have hM : mergeRevised (labelInitial
            [("GPT-4o-mini", mkEntry gptCfg (CallResult.ok c1)),
             ("Gemini-1.5-Flash", mkEntry gemCfg (CallResult.ok c2))])
            [("GPT-4o-mini", reviseEntry (mkEntry gptCfg (CallResult.ok c1))
                (CallResult.ok d1)),
             ("Gemini-1.5-Flash", reviseEntry (mkEntry gemCfg (CallResult.ok c2))
                (CallResult.err f2))] = Except.ok
            [("GPT-4o-mini",
                { success := true, content := some d1, error := none,
                  name := "GPT-4o-mini", model_id := "gpt-4o-mini",
                  api := some "openai", display_name := some "GPT-4o-mini",
                  original_content := some c1, label := some "Revised",
                  label_class := some "revised-label" }),
             ("Gemini-1.5-Flash",
                { success := true, content := some c2, error := some f2,
                  name := "Gemini-1.5-Flash", model_id := "gemini-1.5-flash-latest",
                  api := some "gemini", display_name := some "Gemini-1.5-Flash",
                  original_content := some c2, label := some "Revised",
                  label_class := some "revised-label" })] := rfl
        rw [hM] at hrun
        have hfin := (Except.ok.inj hrun).symm
        subst hfin
        intro p hp
        simp only [List.mem_cons, List.not_mem_nil, or_false] at hp
        rcases hp with rfl | rfl
        · by_cases hdc : d1 = c1 <;> simp [displayLabel, optOr, hdc]
        · simp [displayLabel, optOr]
      case err.ok =>
        have hM : mergeRevised (labelInitial
            [("GPT-4o-mini", mkEntry gptCfg (CallResult.ok c1)),
             ("Gemini-1.5-Flash", mkEntry gemCfg (CallResult.ok c2))])
            [("GPT-4o-mini", reviseEntry (mkEntry gptCfg (CallResult.ok c1))
                (CallResult.err f1)),
             ("Gemini-1.5-Flash", reviseEntry (mkEntry gemCfg (CallResult.ok c2))
                (CallResult.ok d2))] = Except.ok
            [("GPT-4o-mini",
                { success := true, content := some c1, error := some f1,
                  name := "GPT-4o-mini", model_id := "gpt-4o-mini",
                  api := some "openai", display_name := some "GPT-4o-mini",
                  original_content := some c1, label := some "Revised",
                  label_class := some "revised-label" }),
             ("Gemini-1.5-Flash",
                { success := true, content := some d2, error := none,
                  name := "Gemini-1.5-Flash", model_id := "gemini-1.5-flash-latest",
                  api := some "gemini", display_name := some "Gemini-1.5-Flash",
                  original_content := some c2, label := some "Revised",
                  label_class := some "revised-label" })] := rfl
        rw [hM] at hrun
        have hfin := (Except.ok.inj hrun).symm
        subst hfin
        intro p hp
        simp only [List.mem_cons, List.not_mem_nil, or_false] at hp
        rcases hp with rfl | rfl
        · simp [displayLabel, optOr]
        · by_cases hdc : d2 = c2 <;> simp [displayLabel, optOr, hdc]
      case err.err =>
        have hM : mergeRevised (labelInitial
            [("GPT-4o-mini", mkEntry gptCfg (CallResult.ok c1)),
             ("Gemini-1.5-Flash", mkEntry gemCfg (CallResult.ok c2))])
            [("GPT-4o-mini", reviseEntry (mkEntry gptCfg (CallResult.ok c1))
                (CallResult.err f1)),
             ("Gemini-1.5-Flash", reviseEntry (mkEntry gemCfg (CallResult.ok c2))
                (CallResult.err f2))] = Except.ok
            [("GPT-4o-mini",
                { success := true, content := some c1, error := some f1,
                  name := "GPT-4o-mini", model_id := "gpt-4o-mini",
                  api := some "openai", display_name := some "GPT-4o-mini",
                  original_content := some c1, label := some "Revised",
                  label_class := some "revised-label" }),
             ("Gemini-1.5-Flash",
                { success := true, content := some c2, error := some f2,
                  name := "Gemini-1.5-Flash", model_id := "gemini-1.5-flash-latest",
                  api := some "gemini", display_name := some "Gemini-1.5-Flash",
                  original_content := some c2, label := some "Revised",
                  label_class := some "revised-label" })] := rfl
        rw [hM] at hrun
        have hfin := (Except.ok.inj hrun).symm
        subst hfin
        intro p hp
        simp only [List.mem_cons, List.not_mem_nil, or_false] at hp
        rcases hp with rfl | rfl
        · simp [displayLabel, optOr]
        · simp [displayLabel, optOr]
  case ok.err =>
    have hsim : are_answers_similar ob gb (LLMHandler.ofKeys ko kg) q
        [("GPT-4o-mini", mkEntry gptCfg (CallResult.ok c1)),
         ("Gemini-1.5-Flash", mkEntry gemCfg (CallResult.err e2))] = true := rfl
    rw [process_agree ob gb _ q _ hD hsim] at hrun
    have hfin := (Except.ok.inj hrun).symm
    subst hfin
    intro p hp
    simp only [labelInitial, List.map, mkEntry, List.mem_cons,
      List.not_mem_nil, or_false] at hp
    rcases hp with rfl | rfl <;>
      simp [displayLabel, mkEntry, gptCfg, gemCfg, optOr]
  case err.ok =>
    have hsim : are_answers_similar ob gb (LLMHandler.ofKeys ko kg) q
        [("GPT-4o-mini", mkEntry gptCfg (CallResult.err e1)),
         ("Gemini-1.5-Flash", mkEntry gemCfg (CallResult.ok c2))] = true := rfl
    rw [process_agree ob gb _ q _ hD hsim] at hrun
    have hfin := (Except.ok.inj hrun).symm
    subst hfin
    intro p hp
    simp only [labelInitial, List.map, mkEntry, List.mem_cons,
      List.not_mem_nil, or_false] at hp
    rcases hp with rfl | rfl <;>
      simp [displayLabel, mkEntry, gptCfg, gemCfg, optOr]
  case err.err =>
    have hsim : are_answers_similar ob gb (LLMHandler.ofKeys ko kg) q
        [("GPT-4o-mini", mkEntry gptCfg (CallResult.err e1)),
         ("Gemini-1.5-Flash", mkEntry gemCfg (CallResult.err e2))] = true := rfl
    rw [process_agree ob gb _ q _ hD hsim] at hrun
    have hfin := (Except.ok.inj hrun).symm
    subst hfin
    intro p hp
    simp only [labelInitial, List.map, mkEntry, List.mem_cons,
      List.not_mem_nil, or_false] at hp
    rcases hp with rfl | rfl <;>
      simp [displayLabel, mkEntry, gptCfg, gemCfg, optOr]

set_option maxRecDepth 10000 in
/-- Witness for C5 on a concrete disagree-then-defend run. -/
theorem defended_label_iff_witness :
    process_validation c5ob c5gb (LLMHandler.ofKeys "k1" "k2") "Q" =
      Except.ok c5final ∧
    ((c5gpt.2.label = some "Original" ∨ c5gpt.2.label = some "Revised") ∧
     (displayLabel c5gpt.2 = some "Defended" ↔
       (c5gpt.2.label = some "Revised" ∧ c5gpt.2.error = none ∧
        c5gpt.2.original_content.isSome = true ∧
        c5gpt.2.content = c5gpt.2.original_content)) ∧
     ((c5gpt.2.label = some "Revised" ∧ c5gpt.2.error = none ∧
       c5gpt.2.content ≠ c5gpt.2.original_content) →
       displayLabel c5gpt.2 = some "Revised")) :=
  ⟨rfl, defended_label_iff "k1" "k2" c5ob c5gb "Q" c5final rfl c5gpt (by decide)⟩

end CrossLLM
